import Mathlib

/-!
# Verification of FaceWorks `src/internal.h` (allocator indirection and scoped profiler)

This file gives a shallow embedding of the memory-allocation helpers
(`FaceWorks_Malloc`, `FaceWorks_Free`), the STL allocator adapter
(`FaceWorks_Allocator`), and the scoped profiler (`FaceWorks_Profiler`)
from `src/internal.h`, and proves properties of them.

Modelling conventions:
* Raw pointers are natural numbers; `0` is the null pointer.
* The caller-supplied allocation hooks (`gfsdk_new_delete_t`) are optional
  functions; the platform allocator (`::operator new`) is passed in as an
  explicit environment parameter.
* Calls to external collaborators (custom hooks, platform deallocator,
  `QueryPerformanceCounter`, `ErrPrintf` into the error blob,
  `ProfilerPushTime`) are recorded as events in an explicit trace, so that
  "X is (not) invoked" becomes a statement about the trace.
* The outcomes of `QueryPerformanceFrequency` / `QueryPerformanceCounter`
  are supplied by oracles (`Option Int`: `none` = the call failed,
  `some v` = it succeeded and wrote `v`).
* C strings are lists of bytes (`List Nat`) holding the `strlen`-delimited
  contents; the fixed 264-byte label buffer is a `List Nat` of length 264.
-/

/-- The caller-supplied allocation hook pair `gfsdk_new_delete_t`:
`new_` maps a byte count to a pointer (`0` = null), `delete_` releases a
pointer.  Either may be absent (`nullptr`). -/
structure gfsdk_new_delete_t where
  new_ : Option (Nat → Nat)
  delete_ : Option (Nat → Unit)

/-- Which allocation routine an allocation request ended up invoking. -/
inductive AllocCall where
  | customNew (bytes : Nat)
  | platformNew (bytes : Nat)
deriving DecidableEq

/-- Which deallocation routine a release request ended up invoking. -/
inductive FreeCall where
  | customDelete (p : Nat)
  | platformDelete (p : Nat)
deriving DecidableEq

/-- `FaceWorks_Malloc(bytes, allocator)`: if the `new_` hook is present,
invoke it; otherwise use the platform `::operator new` (here the explicit
parameter `platformNew`).  Returns the resulting pointer together with a
record of which routine was invoked. -/
def FaceWorks_Malloc (bytes : Nat) (allocator : gfsdk_new_delete_t)
    (platformNew : Nat → Nat) : Nat × AllocCall :=
  match allocator.new_ with
  | some f => (f bytes, AllocCall.customNew bytes)
  | none => (platformNew bytes, AllocCall.platformNew bytes)

/-- `FaceWorks_Free(p, allocator)`: a no-op on the null pointer; otherwise
invoke the `delete_` hook if present, else the platform
`::operator delete`.  The result is the list of deallocation calls made. -/
def FaceWorks_Free (p : Nat) (allocator : gfsdk_new_delete_t) : List FreeCall :=
  if p = 0 then []
  else
    match allocator.delete_ with
    | some _ => [FreeCall.customDelete p]
    | none => [FreeCall.platformDelete p]

/-- The exception thrown by `FaceWorks_Allocator::allocate` on a null result. -/
inductive AllocError where
  | bad_alloc
deriving DecidableEq

/-- The STL allocator adapter `FaceWorks_Allocator<T>`: the element size
`sizeof(T)` plus the held hook pair `m_allocator`. -/
structure FaceWorks_Allocator where
  sizeofT : Nat
  m_allocator : gfsdk_new_delete_t

/-- The `explicit FaceWorks_Allocator(gfsdk_new_delete_t * pAllocator)`
constructor: copy the hooks if the pointer is non-null, else store a pair
of null hooks. -/
def FaceWorks_Allocator.mk_from_ptr (sizeofT : Nat)
    (pAllocator : Option gfsdk_new_delete_t) : FaceWorks_Allocator :=
  match pAllocator with
  | some a => ⟨sizeofT, ⟨a.new_, a.delete_⟩⟩
  | none => ⟨sizeofT, ⟨none, none⟩⟩

/-- The converting (rebind) constructor
`FaceWorks_Allocator(FaceWorks_Allocator<T1> const & other)`: the new
allocator, for element size `sizeofT1`, copies `other.m_allocator`. -/
def FaceWorks_Allocator.rebind_ctor (sizeofT1 : Nat)
    (other : FaceWorks_Allocator) : FaceWorks_Allocator :=
  ⟨sizeofT1, other.m_allocator⟩

/-- `FaceWorks_Allocator::allocate(n)`: request `n * sizeof(T)` bytes via
`FaceWorks_Malloc`; throw `std::bad_alloc` if the result is null, else
return the pointer. -/
def FaceWorks_Allocator.allocate (a : FaceWorks_Allocator) (n : Nat)
    (platformNew : Nat → Nat) : Except AllocError Nat :=
  let p := (FaceWorks_Malloc (n * a.sizeofT) a.m_allocator platformNew).1
  if p = 0 then Except.error AllocError.bad_alloc else Except.ok p

/-- `FaceWorks_Allocator::deallocate(p, n)`: `n` is ignored; forward to
`FaceWorks_Free`. -/
def FaceWorks_Allocator.deallocate (a : FaceWorks_Allocator) (p : Nat)
    (n : Nat) : List FreeCall :=
  FaceWorks_Free p a.m_allocator

/-- C1: for every count `n`, every hook configuration and every platform
allocator, `FaceWorks_Allocator::allocate` either throws `std::bad_alloc`
or returns a non-null pointer; it never returns null. -/
theorem allocate_never_returns_null (a : FaceWorks_Allocator) (n : Nat)
    (platformNew : Nat → Nat) :
    a.allocate n platformNew = Except.error AllocError.bad_alloc ∨
      ∃ p, p ≠ 0 ∧ a.allocate n platformNew = Except.ok p := by
  unfold FaceWorks_Allocator.allocate
  by_cases h : (FaceWorks_Malloc (n * a.sizeofT) a.m_allocator platformNew).1 = 0
  · left
    simp [h]
  · right
    exact ⟨_, h, by simp [h]⟩

/-- C8: deallocating the null pointer is a no-op for every hook
configuration: `FaceWorks_Free` makes no deallocation call at all, and so
does `FaceWorks_Allocator::deallocate`. -/
theorem deallocate_null_noop (allocator : gfsdk_new_delete_t)
    (a : FaceWorks_Allocator) (n : Nat) :
    FaceWorks_Free 0 allocator = [] ∧ a.deallocate 0 n = [] := by
  constructor
  · simp [FaceWorks_Free]
  · simp [FaceWorks_Allocator.deallocate, FaceWorks_Free]

/-- C9: rebinding a `FaceWorks_Allocator` to another element type copies
the held `AllocationHooks` value `m_allocator` unchanged. -/
theorem rebind_preserves_hooks (sizeofT1 : Nat) (a : FaceWorks_Allocator) :
    (FaceWorks_Allocator.rebind_ctor sizeofT1 a).m_allocator = a.m_allocator :=
  rfl

/-- C10: with a partial hook pair each operation dispatches on its own
hook: with only `new_` set, `FaceWorks_Malloc` invokes the custom hook
while `FaceWorks_Free` uses the platform deallocator, and symmetrically
with only `delete_` set. -/
theorem partial_hooks_dispatch_independently (f : Nat → Nat)
    (g : Nat → Unit) (platformNew : Nat → Nat) (bytes : Nat) (p : Nat)
    (hp : p ≠ 0) :
    (FaceWorks_Malloc bytes ⟨some f, none⟩ platformNew
        = (f bytes, AllocCall.customNew bytes) ∧
      FaceWorks_Free p ⟨some f, none⟩ = [FreeCall.platformDelete p]) ∧
    (FaceWorks_Malloc bytes ⟨none, some g⟩ platformNew
        = (platformNew bytes, AllocCall.platformNew bytes) ∧
      FaceWorks_Free p ⟨none, some g⟩ = [FreeCall.customDelete p]) := by
  refine ⟨⟨rfl, ?_⟩, ⟨rfl, ?_⟩⟩
  · simp [FaceWorks_Free, hp]
  · simp [FaceWorks_Free, hp]

/-- Witness for C10 at `f = (· + 1)`, `bytes = 8`, `p = 1`. -/
theorem partial_hooks_dispatch_independently_witness :
    (FaceWorks_Malloc 8 ⟨some (fun b => b + 1), none⟩ id
        = ((fun b => b + 1) 8, AllocCall.customNew 8) ∧
      FaceWorks_Free 1 ⟨some (fun b => b + 1), none⟩
        = [FreeCall.platformDelete 1]) ∧
    (FaceWorks_Malloc 8 ⟨none, some (fun _ => ())⟩ id
        = (id 8, AllocCall.platformNew 8) ∧
      FaceWorks_Free 1 ⟨none, some (fun _ => ())⟩
        = [FreeCall.customDelete 1]) :=
  partial_hooks_dispatch_independently (fun b => b + 1) (fun _ => ()) id 8 1
    (by decide)

/-! ## The profiler label buffer

The `FaceWorks_Profiler` constructor builds `m_info_str` (a fixed
`char[264]` buffer, zero-initialised by `memset`) with a sequence of
`memcpy_s` calls and one direct store of `'|'` (byte 124).  We model the
buffer as a `List Nat` of length 264 and the construction as the list of
`(index, byte)` stores it performs. -/

/-- Bytes of the constant label head `"FaceWorks_Profiler: "` (the local
`prefix` variable of the constructor). -/
def infoHeader : List Nat := "FaceWorks_Profiler: ".toList.map Char.toNat

/-- The `(index, byte)` stores performed by
`memcpy_s(&m_info_str[dst0], n, src, n)` where `src` holds the bytes of
`src` and `n = src.length`. -/
def memcpyWrites (dst0 : Nat) (src : List Nat) : List (Nat × Nat) :=
  match src with
  | [] => []
  | b :: rest => (dst0, b) :: memcpyWrites (dst0 + 1) rest

/-- All stores into `m_info_str` made by the constructor for a non-null
`name`/`fun` pair, in program order: the header, the name truncated to
64 bytes, the `'|'` separator, and the context truncated first to
64 bytes (`fun_sz`) and then to the remaining budget
`256 - name_sz` (`len`). -/
def labelWrites (name fn : List Nat) : List (Nat × Nat) :=
  let prefixLen := infoHeader.length
  let name_sz := min name.length 64
  let w1 := memcpyWrites 0 infoHeader
  let w2 := memcpyWrites prefixLen (name.take name_sz)
  let name_sz2 := name_sz + prefixLen
  let w3 := [(name_sz2, 124)]
  let name_sz3 := name_sz2 + 1
  let fun_sz := min fn.length 64
  let len := min (256 - name_sz3) fun_sz
  let w4 := memcpyWrites name_sz3 (fn.take len)
  w1 ++ w2 ++ w3 ++ w4

/-- Apply a list of `(index, byte)` stores to a buffer, in order. -/
def applyWrites (buf : List Nat) (ws : List (Nat × Nat)) : List Nat :=
  ws.foldl (fun b iv => b.set iv.1 iv.2) buf

/-- The contents of `m_info_str` after the constructor's label build:
the stores of `labelWrites` applied to the zeroed 264-byte buffer. -/
def buildInfoStr (name fn : List Nat) : List Nat :=
  applyWrites (List.replicate 264 0) (labelWrites name fn)

/-- `strlen` on the buffer: the number of bytes before the first 0. -/
def cstrlen (buf : List Nat) : Nat :=
  (buf.takeWhile (fun b => b != 0)).length

/-- The C string held by the buffer: its bytes up to the first 0. -/
def labelStr (buf : List Nat) : List Nat :=
  buf.takeWhile (fun b => b != 0)

theorem mem_memcpyWrites {w : Nat × Nat} :
    ∀ {dst0 : Nat} {src : List Nat}, w ∈ memcpyWrites dst0 src →
      dst0 ≤ w.1 ∧ w.1 < dst0 + src.length := by
  intro dst0 src
  induction src generalizing dst0 with
  | nil => intro h; simp [memcpyWrites] at h
  | cons b rest ih =>
    intro h
    simp only [memcpyWrites, List.mem_cons] at h
    rcases h with h | h
    · subst h; simp
    · have := ih h
      simp only [List.length_cons]
      omega

/-- Every store of the label build hits an index below 149. -/
theorem labelWrites_idx_lt (name fn : List Nat) :
    ∀ w ∈ labelWrites name fn, w.1 < 149 := by
  intro w hw
  have hhead : infoHeader.length = 20 := by decide
  simp only [labelWrites, List.mem_append, List.mem_singleton] at hw
  rcases hw with ((h | h) | h) | h
  · have := mem_memcpyWrites h
    omega
  · have := mem_memcpyWrites h
    have hlt : (name.take (min name.length 64)).length ≤ 64 := by
      simp [List.length_take]
    omega
  · subst h; simp; omega
  · have := mem_memcpyWrites h
    have hlf : (fn.take (min (256 - (min name.length 64 + infoHeader.length + 1))
        (min fn.length 64))).length ≤ 64 := by
      simp [List.length_take]
    omega

theorem applyWrites_length (ws : List (Nat × Nat)) :
    ∀ buf : List Nat, (applyWrites buf ws).length = buf.length := by
  induction ws with
  | nil => intro buf; rfl
  | cons w rest ih =>
    intro buf
    have : applyWrites buf (w :: rest) = applyWrites (buf.set w.1 w.2) rest := rfl
    rw [this, ih, List.length_set]

theorem applyWrites_getD_of_ne (k : Nat) (ws : List (Nat × Nat)) :
    ∀ buf : List Nat, (∀ w ∈ ws, w.1 ≠ k) →
      (applyWrites buf ws).getD k 1 = buf.getD k 1 := by
  induction ws with
  | nil => intro buf _; rfl
  | cons w rest ih =>
    intro buf h
    have hstep : applyWrites buf (w :: rest) = applyWrites (buf.set w.1 w.2) rest := rfl
    rw [hstep, ih _ (fun v hv => h v (List.mem_cons_of_mem _ hv))]
    simp [List.getD_eq_getElem?_getD, List.getElem?_set_ne (h w (List.mem_cons_self _ _))]

theorem cstrlen_cons (a : Nat) (t : List Nat) :
    cstrlen (a :: t) = if a = 0 then 0 else cstrlen t + 1 := by
  by_cases ha : a = 0 <;> simp [cstrlen, List.takeWhile_cons, ha]

theorem cstrlen_le_of_getD_zero :
    ∀ (l : List Nat) (k : Nat), l.getD k 1 = 0 → cstrlen l ≤ k := by
  intro l
  induction l with
  | nil => intro k h; simp at h
  | cons a t ih =>
    intro k h
    by_cases ha : a = 0
    · simp [cstrlen_cons, ha]
    · rw [cstrlen_cons]
      simp only [ha, if_false]
      cases k with
      | zero =>
        exfalso
        apply ha
        simpa [List.getD_eq_getElem?_getD] using h
      | succ k =>
        have ht : t.getD k 1 = 0 := by
          simpa [List.getD_eq_getElem?_getD] using h
        have := ih k ht
        omega

theorem getD_cstrlen_eq_zero :
    ∀ l : List Nat, cstrlen l < l.length → l.getD (cstrlen l) 1 = 0 := by
  intro l
  induction l with
  | nil => intro h; simp at h
  | cons a t ih =>
    intro h
    by_cases ha : a = 0
    · simp [cstrlen_cons, ha]
    · rw [cstrlen_cons] at *
      simp only [ha, if_false] at *
      have ht : cstrlen t < t.length := by simpa using h
      simpa [List.getD_eq_getElem?_getD] using ih ht

/-- C4: the label build never stores outside the fixed 264-byte buffer
(every write index is in bounds), the buffer keeps its size, the
resulting C string is at most 256 bytes, and an actual null terminator
follows it inside the buffer. -/
theorem label_build_safe (name fn : List Nat) :
    (∀ w ∈ labelWrites name fn, w.1 < 264) ∧
    (buildInfoStr name fn).length = 264 ∧
    cstrlen (buildInfoStr name fn) ≤ 256 ∧
    (buildInfoStr name fn).getD (cstrlen (buildInfoStr name fn)) 1 = 0 := by
  have hidx := labelWrites_idx_lt name fn
  have hlen : (buildInfoStr name fn).length = 264 := by
    rw [buildInfoStr, applyWrites_length]
    rw [List.length_replicate]
  have hne : ∀ w ∈ labelWrites name fn, w.1 ≠ 149 := by
    intro w hw
    have := hidx w hw
    omega
  have h149 : (buildInfoStr name fn).getD 149 1 = 0 := by
    rw [buildInfoStr, applyWrites_getD_of_ne 149 (labelWrites name fn) _ hne]
    decide
  have hcs : cstrlen (buildInfoStr name fn) ≤ 149 :=
    cstrlen_le_of_getD_zero _ _ h149
  refine ⟨fun w hw => by have := hidx w hw; omega, hlen, by omega, ?_⟩
  exact getD_cstrlen_eq_zero _ (by omega)

/-! ## The exact label contents -/

theorem memcpyWrites_append (a b : List Nat) :
    ∀ d : Nat, memcpyWrites d (a ++ b)
      = memcpyWrites d a ++ memcpyWrites (d + a.length) b := by
  induction a with
  | nil => intro d; simp [memcpyWrites]
  | cons x rest ih =>
    intro d
    have h1 : memcpyWrites d ((x :: rest) ++ b)
        = (d, x) :: memcpyWrites (d + 1) (rest ++ b) := rfl
    have h2 : memcpyWrites d (x :: rest) = (d, x) :: memcpyWrites (d + 1) rest := rfl
    rw [h1, ih (d + 1), h2, List.length_cons,
      (by omega : d + (rest.length + 1) = d + 1 + rest.length)]
    rfl

theorem set_eq_take_cons_drop :
    ∀ (buf : List Nat) (d : Nat) (b : Nat), d < buf.length →
      buf.set d b = buf.take d ++ b :: buf.drop (d + 1) := by
  intro buf
  induction buf with
  | nil => intro d b h; simp at h
  | cons a t ih =>
    intro d b h
    cases d with
    | zero => simp
    | succ d =>
      have h' : d < t.length := by simpa using h
      simp [List.set_cons_succ, List.take_succ_cons, List.drop_succ_cons, ih d b h']

theorem applyWrites_memcpyWrites (l : List Nat) :
    ∀ (buf : List Nat) (d : Nat), d + l.length ≤ buf.length →
      applyWrites buf (memcpyWrites d l)
        = buf.take d ++ l ++ buf.drop (d + l.length) := by
  induction l with
  | nil =>
    intro buf d h
    simp [memcpyWrites, applyWrites]
  | cons b rest ih =>
    intro buf d h
    have hlc : (b :: rest).length = rest.length + 1 := rfl
    have hd : d < buf.length := by rw [hlc] at h; omega
    have hstep : applyWrites buf (memcpyWrites d (b :: rest))
        = applyWrites (buf.set d b) (memcpyWrites (d + 1) rest) := rfl
    have hlen2 : d + 1 + rest.length ≤ (buf.set d b).length := by
      rw [List.length_set]
      rw [hlc] at h
      omega
    rw [hstep, ih (buf.set d b) (d + 1) hlen2]
    rw [set_eq_take_cons_drop buf d b hd]
    have hxb : (buf.take d ++ [b]).length = d + 1 := by
      simp [List.length_take]
      omega
    have hsplit : buf.take d ++ b :: buf.drop (d + 1)
        = (buf.take d ++ [b]) ++ buf.drop (d + 1) := by
      simp
    rw [hsplit, List.take_left' hxb]
    rw [(by omega : d + 1 + rest.length = (d + 1) + rest.length), ← hxb,
      List.drop_append, List.drop_drop, hxb]
    rw [(by omega : d + 1 + rest.length = d + (rest.length + 1))]
    simp

/-- `name_sz` after truncation: `min(strlen(name), 64ull)`. -/
def name_budget (name : List Nat) : Nat := min name.length 64

/-- The final copy length `len` for the context: `strlen(fun)` first
truncated to 64 (`fun_sz`), then to the remaining budget
`256ull - name_sz` where `name_sz` has become
`min(strlen(name), 64) + prefixLen + 1`. -/
def fun_budget (name fn : List Nat) : Nat :=
  min (256 - (name_budget name + infoHeader.length + 1)) (min fn.length 64)

/-- The byte string the constructor lays down: header, truncated name,
`'|'` separator, truncated context. -/
def labelFull (name fn : List Nat) : List Nat :=
  infoHeader ++ name.take (name_budget name) ++ [124]
    ++ fn.take (fun_budget name fn)

/-- The four store groups of the label build form one contiguous store of
`labelFull` at offset 0. -/
theorem labelWrites_eq_memcpy (name fn : List Nat) :
    labelWrites name fn = memcpyWrites 0 (labelFull name fn) := by
  have hA : infoHeader.length = 20 := by decide
  have htk : (name.take (min name.length 64)).length = min name.length 64 := by
    rw [List.length_take]
    omega
  simp only [labelWrites, labelFull, name_budget, fun_budget, hA]
  rw [memcpyWrites_append, memcpyWrites_append, memcpyWrites_append]
  simp only [List.length_append, hA, htk, List.length_cons, List.length_nil,
    Nat.zero_add, memcpyWrites, List.singleton_append,
    Nat.add_comm 20 (min name.length 64)]

theorem labelFull_length_le (name fn : List Nat) :
    (labelFull name fn).length ≤ 149 := by
  have hA : infoHeader.length = 20 := by decide
  simp only [labelFull, List.length_append, List.length_take,
    List.length_cons, List.length_nil, name_budget, fun_budget, hA]
  omega

/-- After the constructor, the buffer is exactly the label followed by
the zero padding left over from the `memset`. -/
theorem buildInfoStr_eq (name fn : List Nat) :
    buildInfoStr name fn
      = labelFull name fn
          ++ List.replicate (264 - (labelFull name fn).length) 0 := by
  rw [buildInfoStr, labelWrites_eq_memcpy]
  have hle : 0 + (labelFull name fn).length
      ≤ (List.replicate 264 (0 : Nat)).length := by
    rw [List.length_replicate]
    have := labelFull_length_le name fn
    omega
  rw [applyWrites_memcpyWrites _ _ _ hle]
  simp only [List.take_zero, List.nil_append, Nat.zero_add, List.drop_replicate]

theorem takeWhile_append_replicate (k : Nat) :
    ∀ l : List Nat, (∀ b ∈ l, b ≠ 0) →
      (l ++ List.replicate k 0).takeWhile (fun b => b != 0) = l := by
  intro l
  induction l with
  | nil =>
    intro _
    cases k with
    | zero => rfl
    | succ k => simp [List.replicate_succ, List.takeWhile_cons]
  | cons a t ih =>
    intro h
    have ha : a ≠ 0 := h a (List.mem_cons_self _ _)
    have ht := ih (fun b hb => h b (List.mem_cons_of_mem _ hb))
    simp [List.takeWhile_cons, ha, ht]

/-- C5 (amended): the constructed label is the header kept whole, the
name truncated to 64 bytes, the `'|'` separator, and the context
truncated to 64 bytes first and only then to the remaining budget within
the 256-byte cap (`fun_budget`), not to the remaining budget alone. -/
theorem label_contents (name fn : List Nat)
    (hname : ∀ b ∈ name, b ≠ 0) (hfn : ∀ b ∈ fn, b ≠ 0) :
    labelStr (buildInfoStr name fn) = labelFull name fn := by
  rw [buildInfoStr_eq, labelStr]
  apply takeWhile_append_replicate
  intro b hb
  rcases List.mem_append.1 hb with hb1 | h4
  · rcases List.mem_append.1 hb1 with hb2 | h3
    · rcases List.mem_append.1 hb2 with h1 | h2
      · exact (by decide : ∀ b ∈ infoHeader, b ≠ 0) b h1
      · exact hname b (List.take_subset _ _ h2)
    · have hb124 : b = 124 := by simpa using h3
      omega
  · exact hfn b (List.take_subset _ _ h4)

/-- Witness for C5's amended theorem at a 100-byte name (bytes `65`) and
a 100-byte context (bytes `66`). -/
theorem label_contents_witness :
    labelStr (buildInfoStr (List.replicate 100 65) (List.replicate 100 66))
      = labelFull (List.replicate 100 65) (List.replicate 100 66) :=
  label_contents (List.replicate 100 65) (List.replicate 100 66)
    (by decide) (by decide)

set_option maxRecDepth 4000 in
/-- C5 as stated is false: with a 100-byte name and a 100-byte context
the label does not consist of the header, the first 64 name bytes, the
separator and the full context — the context is cut to 64 bytes even
though budget for all 100 remains under the 256-byte cap. -/
theorem label_full_context_counterexample :
    labelStr (buildInfoStr (List.replicate 100 65) (List.replicate 100 66))
      ≠ infoHeader ++ (List.replicate 100 65).take 64 ++ [124]
          ++ List.replicate 100 66 := by
  decide

/-! ## The scoped profiler state machine

`FaceWorks_Profiler` holds two timestamps, a frequency, the label buffer,
the `m_did_start` / `m_is_dummy` flags and the error blob pointer
(modelled as the flag `hasErrorBlob`).  The Windows calls
`QueryPerformanceFrequency` / `QueryPerformanceCounter` are oracles
(`Option Int`), and every call to a collaborator is recorded as an
event. -/

/-- Which `LARGE_INTEGER` field a `QueryPerformanceCounter` call writes:
`m_begin` (from `start()`) or `m_end` (from `stop()`). -/
inductive Target where
  | begin_
  | end_
deriving DecidableEq

/-- The observable calls the profiler makes to its collaborators. -/
inductive ProfEvent where
  | queryCounter (t : Target)
  | diag
  | pushTime
deriving DecidableEq

/-- The `FaceWorks_Profiler` struct. -/
structure FaceWorks_Profiler where
  m_begin : Int
  m_end : Int
  m_freq : Int
  m_info_str : List Nat
  m_did_start : Bool
  m_is_dummy : Bool
  hasErrorBlob : Bool
deriving DecidableEq

/-- The constructor: `memset` all fields to zero; when both `name` and
`fun` are non-null, build the label and call
`QueryPerformanceFrequency` (oracle `freqResult`), reporting a failure
through the blob when one was supplied; otherwise become dummy. -/
def FaceWorks_Profiler.ctor (name fn : Option (List Nat)) (hasBlob : Bool)
    (freqResult : Option Int) : FaceWorks_Profiler × List ProfEvent :=
  match name, fn with
  | some n, some f =>
    let info := buildInfoStr n f
    match freqResult with
    | some q => (⟨0, 0, q, info, false, false, hasBlob⟩, [])
    | none => (⟨0, 0, 0, info, false, false, hasBlob⟩,
        if hasBlob then [ProfEvent.diag] else [])
  | _, _ => (⟨0, 0, 0, List.replicate 264 0, false, true, hasBlob⟩, [])

/-- `try_query_and_report_err(which)`: call `QueryPerformanceCounter`
(oracle `qr`); on failure report through the blob when present.  Returns
the new value of `which` (unchanged on failure) and the events. -/
def FaceWorks_Profiler.try_query_and_report_err (p : FaceWorks_Profiler)
    (t : Target) (qr : Option Int) (which : Int) : Int × List ProfEvent :=
  match qr with
  | some v => (v, [ProfEvent.queryCounter t])
  | none => (which, ProfEvent.queryCounter t ::
      if p.hasErrorBlob then [ProfEvent.diag] else [])

/-- `start()`: captures `m_begin` and sets `m_did_start`, but only when
not already started and not dummy. -/
def FaceWorks_Profiler.start (p : FaceWorks_Profiler) (qr : Option Int) :
    FaceWorks_Profiler × List ProfEvent :=
  if !p.m_did_start && !p.m_is_dummy then
    let r := p.try_query_and_report_err Target.begin_ qr p.m_begin
    ({ p with m_begin := r.1, m_did_start := true }, r.2)
  else (p, [])

/-- `stop()`: captures `m_end`, whenever started and not dummy. -/
def FaceWorks_Profiler.stop (p : FaceWorks_Profiler) (qr : Option Int) :
    FaceWorks_Profiler × List ProfEvent :=
  if p.m_did_start && !p.m_is_dummy then
    let r := p.try_query_and_report_err Target.end_ qr p.m_end
    ({ p with m_end := r.1 }, r.2)
  else (p, [])

/-- The destructor: if the profiler ever started, call `stop()` and then
unconditionally compute the elapsed time and call `ProfilerPushTime`. -/
def FaceWorks_Profiler.dtor (p : FaceWorks_Profiler) (qr : Option Int) :
    List ProfEvent :=
  if p.m_did_start then (p.stop qr).2 ++ [ProfEvent.pushTime]
  else []

/-- A client call on a live profiler, with the counter oracle for it. -/
inductive ProfOp where
  | start (qr : Option Int)
  | stop (qr : Option Int)
deriving DecidableEq

/-- Run a sequence of `start()`/`stop()` calls. -/
def runOps : FaceWorks_Profiler → List ProfOp →
    FaceWorks_Profiler × List ProfEvent
  | p, [] => (p, [])
  | p, op :: rest =>
    let r := match op with
      | ProfOp.start qr => p.start qr
      | ProfOp.stop qr => p.stop qr
    let r2 := runOps r.1 rest
    (r2.1, r.2 ++ r2.2)

/-- A whole lifetime: construction, a sequence of `start()`/`stop()`
calls, then destruction; all events in order. -/
def profilerLifetime (name fn : Option (List Nat)) (hasBlob : Bool)
    (freqResult : Option Int) (ops : List ProfOp) (dtorQr : Option Int) :
    List ProfEvent :=
  let c := FaceWorks_Profiler.ctor name fn hasBlob freqResult
  let r := runOps c.1 ops
  c.2 ++ r.2 ++ FaceWorks_Profiler.dtor r.1 dtorQr

/-- Whether a call sequence contains at least one `start()`. -/
def containsStart : List ProfOp → Bool
  | [] => false
  | ProfOp.start _ :: _ => true
  | ProfOp.stop _ :: rest => containsStart rest

theorem try_query_no_push (p : FaceWorks_Profiler) (t : Target)
    (qr : Option Int) (which : Int) :
    (p.try_query_and_report_err t qr which).2.count ProfEvent.pushTime = 0 := by
  rw [List.count_eq_zero]
  cases qr <;> by_cases hb : p.hasErrorBlob <;>
    simp [FaceWorks_Profiler.try_query_and_report_err, hb]

theorem stop_no_push (p : FaceWorks_Profiler) (qr : Option Int) :
    (p.stop qr).2.count ProfEvent.pushTime = 0 := by
  by_cases h : (p.m_did_start && !p.m_is_dummy) = true
  · simp [FaceWorks_Profiler.stop, h, try_query_no_push]
  · simp [FaceWorks_Profiler.stop, h]

theorem dtor_push_count (p : FaceWorks_Profiler) (qr : Option Int) :
    (p.dtor qr).count ProfEvent.pushTime = if p.m_did_start then 1 else 0 := by
  by_cases h : p.m_did_start <;>
    simp [FaceWorks_Profiler.dtor, h, List.count_append, stop_no_push]

theorem runOps_dummy (ops : List ProfOp) :
    ∀ p : FaceWorks_Profiler, p.m_is_dummy = true → runOps p ops = (p, []) := by
  induction ops with
  | nil => intro p _; rfl
  | cons op rest ih =>
    intro p h
    cases op with
    | start qr =>
      have hs : p.start qr = (p, []) := by
        simp [FaceWorks_Profiler.start, h]
      simp only [runOps, hs, ih p h, List.nil_append]
    | stop qr =>
      have hs : p.stop qr = (p, []) := by
        simp [FaceWorks_Profiler.stop, h]
      simp only [runOps, hs, ih p h, List.nil_append]

theorem runOps_not_dummy (ops : List ProfOp) :
    ∀ p : FaceWorks_Profiler, p.m_is_dummy = false →
      (runOps p ops).1.m_is_dummy = false ∧
      (runOps p ops).1.m_did_start = (p.m_did_start || containsStart ops) ∧
      (runOps p ops).2.count ProfEvent.pushTime = 0 := by
  induction ops with
  | nil => intro p h; simp [runOps, containsStart, h]
  | cons op rest ih =>
    intro p h
    cases op with
    | start qr =>
      by_cases hd : p.m_did_start = true
      · have hs : p.start qr = (p, []) := by
          simp [FaceWorks_Profiler.start, hd]
        obtain ⟨h1, h2, h3⟩ := ih p h
        refine ⟨?_, ?_, ?_⟩ <;>
          simp only [runOps, hs, List.nil_append, h1, h2, h3, hd,
            containsStart, Bool.true_or]
      · have hd' : p.m_did_start = false := by
          cases hdd : p.m_did_start
          · rfl
          · exact absurd hdd hd
        have hs : p.start qr =
            ({ p with
                m_begin := (p.try_query_and_report_err Target.begin_ qr p.m_begin).1,
                m_did_start := true },
              (p.try_query_and_report_err Target.begin_ qr p.m_begin).2) := by
          simp [FaceWorks_Profiler.start, hd', h]
        obtain ⟨h1, h2, h3⟩ := ih ({ p with
            m_begin := (p.try_query_and_report_err Target.begin_ qr p.m_begin).1,
            m_did_start := true }) h
        refine ⟨?_, ?_, ?_⟩
        · simp only [runOps, hs]
          exact h1
        · simp only [runOps, hs]
          simp only [containsStart, Bool.or_true]
          simp at h2
          simp [h2]
        · simp only [runOps, hs]
          simp [List.count_append, h3, try_query_no_push]
    | stop qr =>
      by_cases hc : (p.m_did_start && !p.m_is_dummy) = true
      · have hs : p.stop qr =
            ({ p with m_end := (p.try_query_and_report_err Target.end_ qr p.m_end).1 },
              (p.try_query_and_report_err Target.end_ qr p.m_end).2) := by
          simp [FaceWorks_Profiler.stop, hc]
        obtain ⟨h1, h2, h3⟩ := ih ({ p with
            m_end := (p.try_query_and_report_err Target.end_ qr p.m_end).1 }) h
        refine ⟨?_, ?_, ?_⟩
        · simp only [runOps, hs]
          exact h1
        · simp only [runOps, hs]
          simp [h2, containsStart]
        · simp only [runOps, hs]
          simp [List.count_append, h3, try_query_no_push]
      · have hs : p.stop qr = (p, []) := by
          simp only [FaceWorks_Profiler.stop]
          rw [if_neg]
          simp [hc]
        obtain ⟨h1, h2, h3⟩ := ih p h
        refine ⟨?_, ?_, ?_⟩ <;>
          simp only [runOps, hs, List.nil_append, h1, h2, h3, containsStart]

/-- C2 (amended): for a started, non-dummy profiler with an error blob, a
failing timestamp capture in the destructor's `stop()` is reported
through the blob, but a timing sample is nevertheless pushed (from the
stale `m_end` value). -/
theorem dtor_stop_failure_reports_but_pushes (p : FaceWorks_Profiler)
    (h1 : p.m_did_start = true) (h2 : p.m_is_dummy = false)
    (h3 : p.hasErrorBlob = true) :
    p.dtor none = [ProfEvent.queryCounter Target.end_, ProfEvent.diag,
      ProfEvent.pushTime] := by
  simp [FaceWorks_Profiler.dtor, FaceWorks_Profiler.stop,
    FaceWorks_Profiler.try_query_and_report_err, h1, h2, h3]

/-- Witness for C2's amended theorem at a concrete started profiler. -/
theorem dtor_stop_failure_reports_but_pushes_witness :
    FaceWorks_Profiler.dtor
        ⟨0, 0, 1, List.replicate 264 0, true, false, true⟩ none
      = [ProfEvent.queryCounter Target.end_, ProfEvent.diag,
          ProfEvent.pushTime] :=
  dtor_stop_failure_reports_but_pushes
    ⟨0, 0, 1, List.replicate 264 0, true, false, true⟩ rfl rfl rfl

/-- C2 as stated is false: in a lifetime that reaches Started and whose
destructor-time timestamp capture fails, the failure is reported (`diag`)
yet `ProfilerPushTime` is still called. -/
theorem dtor_stop_failure_counterexample :
    ProfEvent.diag ∈ profilerLifetime (some [65]) (some [66]) true (some 1)
        [ProfOp.start (some 0)] none ∧
    ProfEvent.pushTime ∈ profilerLifetime (some [65]) (some [66]) true
        (some 1) [ProfOp.start (some 0)] none := by
  decide

/-- C3 (amended): when frequency acquisition fails, the constructor emits
exactly one diagnostic if an error blob was supplied and none otherwise,
and a timing sample is nevertheless pushed at destruction whenever
`start()` was called at least once. -/
theorem freq_failure_diag_and_push (name fn : List Nat) (hasBlob : Bool)
    (ops : List ProfOp) (dtorQr : Option Int) :
    ((FaceWorks_Profiler.ctor (some name) (some fn) hasBlob none).2.count
        ProfEvent.diag = if hasBlob then 1 else 0) ∧
    ((profilerLifetime (some name) (some fn) hasBlob none ops dtorQr).count
        ProfEvent.pushTime = if containsStart ops then 1 else 0) := by
  constructor
  · by_cases hb : hasBlob <;> simp [FaceWorks_Profiler.ctor, hb]
  · have hc : (FaceWorks_Profiler.ctor (some name) (some fn) hasBlob
        none).1.m_is_dummy = false := rfl
    have hds : (FaceWorks_Profiler.ctor (some name) (some fn) hasBlob
        none).1.m_did_start = false := rfl
    obtain ⟨hdum, hstart, hpush⟩ := runOps_not_dummy ops _ hc
    have hd := dtor_push_count
      (runOps (FaceWorks_Profiler.ctor (some name) (some fn) hasBlob
        none).1 ops).1 dtorQr
    rw [hstart, hds, Bool.false_or] at hd
    simp only [profilerLifetime, List.count_append, hpush, hd]
    by_cases hb : hasBlob <;> simp [FaceWorks_Profiler.ctor, hb]

/-- C3 as stated is false: with failing frequency acquisition and no
error blob, one successful `start()` still leads to a pushed sample at
destruction, and zero (not exactly one) diagnostics are produced over the
lifetime. -/
theorem freq_failure_counterexample :
    (profilerLifetime (some [65]) (some [66]) false none
        [ProfOp.start (some 0)] (some 5)).count ProfEvent.pushTime = 1 ∧
    (profilerLifetime (some [65]) (some [66]) false none
        [ProfOp.start (some 0)] (some 5)).count ProfEvent.diag = 0 := by
  decide

/-- C6 (amended): `start()` is a no-op when already started or dummy;
`stop()` is a no-op unless started and non-dummy; but a started,
non-dummy instance captures the end timestamp on every `stop()` call —
once per call, not at most once per instance. -/
theorem start_stop_transitions (p : FaceWorks_Profiler) (qr : Option Int) :
    ((p.m_did_start || p.m_is_dummy) = true → p.start qr = (p, [])) ∧
    ((p.m_did_start && !p.m_is_dummy) = false → p.stop qr = (p, [])) ∧
    ((p.m_did_start && !p.m_is_dummy) = true →
      (p.stop qr).2.count (ProfEvent.queryCounter Target.end_) = 1) := by
  refine ⟨?_, ?_, ?_⟩
  · intro h
    have hcond : (!p.m_did_start && !p.m_is_dummy) = false := by
      cases hp : p.m_did_start <;> cases hq : p.m_is_dummy <;>
        simp_all
    simp [FaceWorks_Profiler.start, hcond]
  · intro h
    simp only [FaceWorks_Profiler.stop]
    rw [if_neg]
    simp [h]
  · intro h
    cases qr with
    | some v => simp [FaceWorks_Profiler.stop, h,
        FaceWorks_Profiler.try_query_and_report_err]
    | none =>
      by_cases hb : p.hasErrorBlob <;>
        simp [FaceWorks_Profiler.stop, h,
          FaceWorks_Profiler.try_query_and_report_err, hb]

/-- Witness for C6's amended theorem: a started instance (parts 1 and 3)
and an idle instance (part 2). -/
theorem start_stop_transitions_witness :
    (FaceWorks_Profiler.start
        ⟨0, 0, 1, List.replicate 264 0, true, false, false⟩ (some 3)
      = (⟨0, 0, 1, List.replicate 264 0, true, false, false⟩, [])) ∧
    (FaceWorks_Profiler.stop
        ⟨0, 0, 1, List.replicate 264 0, false, false, false⟩ (some 3)
      = (⟨0, 0, 1, List.replicate 264 0, false, false, false⟩, [])) ∧
    ((FaceWorks_Profiler.stop
        ⟨0, 0, 1, List.replicate 264 0, true, false, false⟩ (some 3)).2.count
      (ProfEvent.queryCounter Target.end_) = 1) :=
  ⟨(start_stop_transitions
      ⟨0, 0, 1, List.replicate 264 0, true, false, false⟩ (some 3)).1
      (by decide),
   (start_stop_transitions
      ⟨0, 0, 1, List.replicate 264 0, false, false, false⟩ (some 3)).2.1
      (by decide),
   (start_stop_transitions
      ⟨0, 0, 1, List.replicate 264 0, true, false, false⟩ (some 3)).2.2
      (by decide)⟩

/-- C6 as stated is false: there is no Stopped state guarding `stop()`,
so after one `start()`, two explicit `stop()` calls capture the end
timestamp twice on the same instance. -/
theorem stop_twice_counterexample :
    ((runOps
        (FaceWorks_Profiler.ctor (some [65]) (some [66]) false (some 1)).1
        [ProfOp.start (some 0), ProfOp.stop (some 1),
          ProfOp.stop (some 2)]).2.count
      (ProfEvent.queryCounter Target.end_)) = 2 := by
  decide

/-- C7: a profiler constructed with a null name or a null context becomes
dummy, and over any sequence of `start()`/`stop()` calls and destruction
it emits no events at all: no timestamp capture and no sample push. -/
theorem dummy_profiler_inert (name fn : Option (List Nat)) (hasBlob : Bool)
    (freqResult : Option Int) (ops : List ProfOp) (dtorQr : Option Int)
    (h : name = none ∨ fn = none) :
    (FaceWorks_Profiler.ctor name fn hasBlob freqResult).1.m_is_dummy = true ∧
    profilerLifetime name fn hasBlob freqResult ops dtorQr = [] := by
  have hc : FaceWorks_Profiler.ctor name fn hasBlob freqResult
      = (⟨0, 0, 0, List.replicate 264 0, false, true, hasBlob⟩, []) := by
    rcases h with h | h
    · subst h; rfl
    · subst h; cases name <;> rfl
  constructor
  · rw [hc]
  · simp only [profilerLifetime, hc]
    rw [runOps_dummy ops ⟨0, 0, 0, List.replicate 264 0, false, true,
      hasBlob⟩ rfl]
    rfl

/-- Witness for C7's theorem at a null name. -/
theorem dummy_profiler_inert_witness :
    (FaceWorks_Profiler.ctor none (some [66]) true (some 1)).1.m_is_dummy
        = true ∧
    profilerLifetime none (some [66]) true (some 1)
        [ProfOp.start (some 0), ProfOp.stop (some 2)] (some 3) = [] :=
  dummy_profiler_inert none (some [66]) true (some 1)
    [ProfOp.start (some 0), ProfOp.stop (some 2)] (some 3) (Or.inl rfl)
